import Mathlib

/-! Shallow embedding of the Drum2Strudel audio-analysis core
(src/client/src/lib/audio-analysis.ts).  JS numbers are modelled as exact
rationals; values produced by `Math.sqrt` live in `ℝ`.  In `peaksOf` the
source compares square roots of nonnegative mean-square energies; we carry
the radicands and compare those instead, which is order-equivalent (see the
lemmas `sqrt_lt_sqrt_rat` and `mul_sqrt_lt_sqrt_rat` below).  Audio decoding
and the three biquad filter passes are browser (Web Audio API) services; the
decoded duration, the raw channel samples, the sample rate and the three
filtered buffers are therefore inputs of the embedded pipeline. -/

/-- JS `Math.round`: round half towards positive infinity. -/
def jsRound (q : ℚ) : ℤ := ⌊q + 1/2⌋

/-- JS `Number.prototype.toFixed(2)` produces a string; we keep the rounded
numeric value (two decimal places). -/
def toFixed2 (q : ℚ) : ℚ := (jsRound (q * 100) : ℚ) / 100

/-- Start indices of the analysis frames in `detectTempo`
(`for (let i = 0; i < data.length - frameSize; i += hopSize)` with
`frameSize = 2048`, `hopSize = 512`).  Natural subtraction matches the JS
loop: when `len ≤ 2048` the JS bound is nonpositive and no frame is taken. -/
def frameStarts (len : ℕ) : List ℕ :=
  List.range' 0 (((len - 2048) + 511) / 512) 512

/-- Mean square of one 2048-sample frame starting at `s`
(the radicand of `Math.sqrt(energy / frameSize)` in `detectTempo`).
On every start produced by `frameStarts` all indices are in range, so the
`getD` default 0 is never hit there. -/
def meanSq (data : List ℚ) (s : ℕ) : ℚ :=
  (((List.range 2048).map fun j => data.getD (s + j) 0 * data.getD (s + j) 0).sum) / 2048

/-- Peak picking of `detectTempo` (lines 126-137): an index `i` with
`2 ≤ i < energies.length - 2` is a peak when its energy exceeds
`0.3 * max(energies)` and strictly exceeds its two neighbours on each side;
peaks are reported as times `i * hopSize / sampleRate`.  The source compares
`energies[k] = sqrt(meanSq k)`; since all mean squares are nonnegative and
square root is strictly monotone, each comparison is embedded on the
radicands (threshold comparison against `0.3^2 * max`), see
`sqrt_lt_sqrt_rat` and `mul_sqrt_lt_sqrt_rat`.  `Math.max()` of the empty
energy list is `-∞` in JS but is only read when the index range is nonempty;
the fold default 0 is likewise never read in that case. -/
def peaksOf (data : List ℚ) (rate : ℚ) : List ℚ :=
  let ms := (frameStarts data.length).map (meanSq data)
  let m := ms.foldl max 0
  ((List.range' 2 (ms.length - 4) 1).filter fun i =>
      decide (ms.getD i 0 > (0.3 : ℚ) ^ 2 * m) &&
      decide (ms.getD i 0 > ms.getD (i - 1) 0) &&
      decide (ms.getD i 0 > ms.getD (i - 2) 0) &&
      decide (ms.getD i 0 > ms.getD (i + 1) 0) &&
      decide (ms.getD i 0 > ms.getD (i + 2) 0)).map
    fun i => (i : ℚ) * 512 / rate

/-- Consecutive inter-onset intervals `peaks[i] - peaks[i-1]`
(`detectTempo` lines 142-148, before the range filter). -/
def rawIntervals (ps : List ℚ) : List ℚ :=
  (ps.zip ps.tail).map fun p => p.2 - p.1

/-- Intervals kept by the realism filter `interval > 0.15 && interval < 2`. -/
def intervalsOf (ps : List ℚ) : List ℚ :=
  (rawIntervals ps).filter fun x => decide (x > 0.15) && decide (x < 2)

/-- The source loop `while (bpm < 75) bpm *= 2`.  The fuel 99 strictly
dominates the at most two iterations possible for any value reachable in
`tempoFromPeaks` (the argument is `60 / m` with `0.15 < m < 2`, hence in
`(30, 400)`; see `foldUp_bounds`). -/
def foldUp : ℕ → ℚ → ℚ
  | 0, b => b
  | n + 1, b => if b < 75 then foldUp n (b * 2) else b

/-- The source loop `while (bpm > 160) bpm /= 2`; fuel as in `foldUp`
(see `foldDown_bounds`). -/
def foldDown : ℕ → ℚ → ℚ
  | 0, b => b
  | n + 1, b => if 160 < b then foldDown n (b / 2) else b

/-- Lines 139-164 of `detectTempo`: default 120 for fewer than 4 peaks,
default 120 for an empty filtered interval list, otherwise 60 over the
median interval (ascending sort, index `⌊length / 2⌋`), octave-folded. -/
def tempoFromPeaks (ps : List ℚ) : ℚ :=
  if ps.length < 4 then 120 else
  let intervals := intervalsOf ps
  if intervals.length = 0 then 120 else
  let sorted := intervals.mergeSort fun a b => decide (a ≤ b)
  let medianInterval := sorted.getD (sorted.length / 2) 0
  foldDown 99 (foldUp 99 (60 / medianInterval))

/-- `detectTempo` (lines 111-165). -/
def detectTempo (data : List ℚ) (rate : ℚ) : ℚ :=
  tempoFromPeaks (peaksOf data rate)

/-- `beatsInLoop = Math.round((duration / 60) * bpm)` (line 36). -/
def beatsOf (duration : ℚ) (channel : List ℚ) (rate : ℚ) : ℤ :=
  jsRound (duration / 60 * detectTempo channel rate)

/-- `steps = beatsInLoop * 8` (line 45); on the accepted path
`beatsInLoop ∈ [2, 16]`, so `Int.toNat` is exact. -/
def stepsOf (duration : ℚ) (channel : List ℚ) (rate : ℚ) : ℕ :=
  (beatsOf duration channel rate).toNat * 8

/-- One entry of an energy profile: normalized RMS and normalized peak
(the loosely-typed `{rms, peak}` records of `getStepEnergy`). -/
structure StepEnergy (α : Type) where
  rms : α
  peak : α

/-- `getStepEnergy` (lines 167-198).  `stepSize = Math.floor(len / steps)`;
each of the `steps` slices contributes
`rms = sqrt(sum / stepSize) / (globalMax || 1)` and
`peak = slicePeak / (globalMax || 1)` where the sums range over the slice
clipped to the buffer and `globalMax` is the largest absolute sample of the
whole buffer.  The square root forces the field values into `ℝ`. -/
noncomputable def getStepEnergy (data : List ℚ) (steps : ℕ) : List (StepEnergy ℝ) :=
  let stepSize := data.length / steps
  let globalMax : ℚ := data.foldl (fun m x => max m |x|) 0
  let denom : ℚ := if globalMax = 0 then 1 else globalMax
  (List.range steps).map fun step =>
    let slice := (data.drop (step * stepSize)).take stepSize
    let sum : ℚ := (slice.map fun v => |v| * |v|).sum
    let slicePeak : ℚ := slice.foldl (fun p v => max p |v|) 0
    { rms := Real.sqrt ((sum / (stepSize : ℚ) : ℚ) : ℝ) / ((denom : ℚ) : ℝ)
      peak := ((slicePeak / denom : ℚ) : ℝ) }

/-- `classifyKicks` (lines 200-205).  JS `Array.prototype.map` passes
`(element, index)` and `element = lows[i]`, so we phrase the map over the
index range; out-of-range `getD` defaults are never reached on aligned
profiles. -/
def classifyKicks {α : Type} [LinearOrderedField α]
    (lows mids highs : List (StepEnergy α)) : List Bool :=
  (List.range lows.length).map fun i =>
    decide ((lows.getD i ⟨0, 0⟩).rms > 0.15 ∧ (lows.getD i ⟨0, 0⟩).peak > 0.3 ∧
      (lows.getD i ⟨0, 0⟩).rms > (highs.getD i ⟨0, 0⟩).rms * 1.5)

/-- `classifySnares` (lines 207-212), mapped over the mid profile. -/
def classifySnares {α : Type} [LinearOrderedField α]
    (lows mids highs : List (StepEnergy α)) : List Bool :=
  (List.range mids.length).map fun i =>
    decide ((mids.getD i ⟨0, 0⟩).rms > 0.15 ∧ (mids.getD i ⟨0, 0⟩).peak > 0.25 ∧
      (lows.getD i ⟨0, 0⟩).rms < 0.4)

/-- `classifyHiHats` (lines 214-219), mapped over the high profile. -/
def classifyHiHats {α : Type} [LinearOrderedField α]
    (lows mids highs : List (StepEnergy α)) : List Bool :=
  (List.range highs.length).map fun i =>
    decide ((highs.getD i ⟨0, 0⟩).rms > 0.05 ∧ (highs.getD i ⟨0, 0⟩).peak > 0.1 ∧
      (lows.getD i ⟨0, 0⟩).rms < 0.2 ∧ (mids.getD i ⟨0, 0⟩).rms < 0.2)

/-- `patternToString` (lines 221-233): slices of 8 steps, each rendered as
hit-or-rest tokens joined by single spaces. -/
def patternToString (pattern : List Bool) (sound : String) : List String :=
  (List.range ((pattern.length + 7) / 8)).map fun i =>
    String.intercalate " " (((pattern.drop (8 * i)).take 8).map fun hit =>
      if hit then sound else "~")

/-- `buildInstrumentTrack` (lines 245-254): beats grouped into bars of 4,
double-space separated, one line per bar inside a backtick block. -/
def buildInstrumentTrack (beatArray : List String) : String :=
  "  s(`\n" ++
    String.join ((List.range ((beatArray.length + 3) / 4)).map fun i =>
      "    " ++ String.intercalate "  " ((beatArray.drop (4 * i)).take 4) ++ "\n") ++
    "  `)"

/-- `generateDrumCode` (lines 235-263). -/
def generateDrumCode (kicks snares hihats : List Bool) (bpm : ℚ) (beats : ℤ) : String :=
  "// " ++ toString beats ++ " beat drum loop @ " ++ toString (jsRound bpm) ++
    " BPM\n" ++ "// 32nd note quantization\n\n" ++ "stack(\n" ++
    buildInstrumentTrack (patternToString kicks "bd") ++ ",\n" ++
    buildInstrumentTrack (patternToString snares "sd") ++ ",\n" ++
    buildInstrumentTrack (patternToString hihats "hh") ++ "\n" ++
    ").slow(" ++ toString beats ++ ").cpm(" ++ toString (jsRound bpm) ++ ")"

/-- The `DrumPattern` output record.  `duration` is the `toFixed(2)` value
(kept numeric, see `toFixed2`). -/
structure DrumPattern where
  bpm : ℤ
  beats : ℤ
  bars : ℚ
  kicks : ℕ
  snares : ℕ
  hihats : ℕ
  duration : ℚ

/-- The `AnalysisResult` record. -/
structure AnalysisResult where
  pattern : DrumPattern
  code : String

/-- Message of the duration check (line 29). -/
def durationErrorMsg : String :=
  "File is too long! Please use loops of 1-4 bars (typically under 8 seconds)."

/-- Message of the beat-count check (line 41). -/
def beatCountErrorMsg (n : ℤ) : String :=
  "Detected " ++ toString n ++ " beats - should be 4-16 beats. Try a different loop."

/-- `analyzeDrumLoop` (lines 16-73) after decoding and filtering: inputs are
the decoded duration, the raw channel samples with their sample rate, and the
three filtered band buffers (low-pass 150, band-pass 400, high-pass 5000 —
external Web Audio passes).  Thrown errors are modelled as `Except.error`.
On the accepted path `beatsInLoop ∈ [2, 16]`, so `Int.toNat` is exact in
`steps = beatsInLoop * 8`. -/
noncomputable def analyzeDrumLoop (duration : ℚ) (channel : List ℚ) (rate : ℚ)
    (lowData midData highData : List ℚ) : Except String AnalysisResult :=
  if duration > 8 then
    Except.error durationErrorMsg
  else
    let bpm := detectTempo channel rate
    let beatsInLoop : ℤ := beatsOf duration channel rate
    let bars : ℚ := (beatsInLoop : ℚ) / 4
    if beatsInLoop < 2 ∨ beatsInLoop > 16 then
      Except.error (beatCountErrorMsg beatsInLoop)
    else
      let steps : ℕ := stepsOf duration channel rate
      let lows := getStepEnergy lowData steps
      let mids := getStepEnergy midData steps
      let highs := getStepEnergy highData steps
      let kicks := classifyKicks lows mids highs
      let snares := classifySnares lows mids highs
      let hihats := classifyHiHats lows mids highs
      Except.ok
        { pattern :=
            { bpm := jsRound bpm
              beats := beatsInLoop
              bars := bars
              kicks := (kicks.filter fun k => k).length
              snares := (snares.filter fun s => s).length
              hihats := (hihats.filter fun h => h).length
              duration := toFixed2 duration }
          code := generateDrumCode kicks snares hihats bpm beatsInLoop }

/-! Justification of the radicand embedding used in `peaksOf`: every
comparison the source makes between frame energies `sqrt(meanSq)` (and
against `0.3` times their maximum) holds exactly when the corresponding
comparison between the nonnegative radicands (and against `0.3 ^ 2` times
their maximum) holds, because the square root is strictly monotone on the
nonnegative reals and hence also maps the maximum to the maximum. -/

/-- Comparing square roots of rationals with a nonnegative left operand is
comparing the radicands. -/
theorem sqrt_lt_sqrt_rat (a b : ℚ) (ha : 0 ≤ a) :
    Real.sqrt a < Real.sqrt b ↔ (a : ℝ) < b :=
  Real.sqrt_lt_sqrt_iff (by exact_mod_cast ha)

/-- The source's threshold test `sqrt m > 0.3 * sqrt M` is the radicand test
`m > 0.3 ^ 2 * M`. -/
theorem mul_sqrt_lt_sqrt (m M : ℝ) (hM : 0 ≤ M) :
    0.3 * Real.sqrt M < Real.sqrt m ↔ 0.3 ^ 2 * M < m := by
  have hx : 0 ≤ (0.3 : ℝ) * Real.sqrt M :=
    mul_nonneg (by norm_num) (Real.sqrt_nonneg M)
  rw [Real.lt_sqrt hx, mul_pow, Real.sq_sqrt hM]

/-- On any argument in `(75 / 2 ^ n, 400)` the doubling loop lands in
`[75, 400)`; the fuel bound is far larger than the iterations needed. -/
theorem foldUp_bounds :
    ∀ (n : ℕ) (b : ℚ), 75 / 2 ^ n < b → b < 400 →
      75 ≤ foldUp n b ∧ foldUp n b < 400 := by
  intro n
  induction n with
  | zero =>
    intro b h1 h2
    rw [pow_zero, div_one] at h1
    exact ⟨le_of_lt h1, h2⟩
  | succ n ih =>
    intro b h1 h2
    by_cases hb : b < 75
    · rw [show foldUp (n + 1) b = foldUp n (b * 2) by rw [foldUp, if_pos hb]]
      apply ih
      · rw [pow_succ] at h1
        have h2n : (0 : ℚ) < 2 ^ n := by positivity
        rw [div_lt_iff₀ (by positivity)] at h1
        rw [div_lt_iff₀ h2n]
        linarith
      · linarith
    · rw [show foldUp (n + 1) b = b by rw [foldUp, if_neg hb]]
      exact ⟨not_lt.mp hb, h2⟩

/-- On any argument in `[75, 100 * 2 ^ n)` the halving loop lands in
`[75, 160]`. -/
theorem foldDown_bounds :
    ∀ (n : ℕ) (b : ℚ), 75 ≤ b → b < 100 * 2 ^ n →
      75 ≤ foldDown n b ∧ foldDown n b ≤ 160 := by
  intro n
  induction n with
  | zero =>
    intro b h1 h2
    rw [pow_zero, mul_one] at h2
    exact ⟨h1, by rw [foldDown]; linarith⟩
  | succ n ih =>
    intro b h1 h2
    by_cases hb : 160 < b
    · rw [show foldDown (n + 1) b = foldDown n (b / 2) by rw [foldDown, if_pos hb]]
      apply ih
      · linarith
      · rw [pow_succ] at h2
        linarith
    · rw [show foldDown (n + 1) b = b by rw [foldDown, if_neg hb]]
      exact ⟨h1, not_lt.mp hb⟩

/-- Every value `tempoFromPeaks` can return lies in `[75, 160]`: the
defaults are 120, and otherwise the median is one of the intervals kept by
the `(0.15, 2)` filter, so `60 / median ∈ (30, 400)` and the octave folding
lands in range. -/
theorem tempoFromPeaks_mem (ps : List ℚ) :
    75 ≤ tempoFromPeaks ps ∧ tempoFromPeaks ps ≤ 160 := by
  by_cases h4 : ps.length < 4
  · rw [tempoFromPeaks, if_pos h4]
    norm_num
  · by_cases h0 : (intervalsOf ps).length = 0
    · rw [tempoFromPeaks, if_neg h4]
      simp only [h0, if_pos]
      norm_num
    · rw [tempoFromPeaks, if_neg h4]
      simp only [h0, if_neg, if_false]
      set sorted := (intervalsOf ps).mergeSort fun a b => decide (a ≤ b) with hs
      have hperm : sorted.Perm (intervalsOf ps) := List.mergeSort_perm _ _
      have hlen : sorted.length = (intervalsOf ps).length := hperm.length_eq
      have hpos : 0 < sorted.length := by omega
      have hidx : sorted.length / 2 < sorted.length :=
        Nat.div_lt_self hpos (by norm_num)
      set m := sorted.getD (sorted.length / 2) 0 with hm
      have hmem : m ∈ sorted := by
        rw [hm, List.getD_eq_getElem sorted 0 hidx]
        exact List.getElem_mem hidx
      have hmem2 : m ∈ intervalsOf ps := hperm.mem_iff.mp hmem
      have hfil := (List.mem_filter.mp hmem2).2
      simp only [Bool.and_eq_true, decide_eq_true_eq, gt_iff_lt] at hfil
      obtain ⟨hm1, hm2⟩ := hfil
      have hm0 : (0 : ℚ) < m := lt_trans (by norm_num) hm1
      have hb1 : (30 : ℚ) < 60 / m := by
        rw [lt_div_iff₀ hm0]; linarith
      have hb2 : 60 / m < 400 := by
        rw [div_lt_iff₀ hm0]
        have : (0.15 : ℚ) = 3 / 20 := by norm_num
        nlinarith
      have hup := foldUp_bounds 99 (60 / m)
        (lt_trans (by norm_num : (75 : ℚ) / 2 ^ 99 < 30) hb1) hb2
      exact foldDown_bounds 99 _ hup.1
        (lt_of_lt_of_le hup.2 (by norm_num))

/-- C2: for every sample buffer and positive sample rate, the tempo value
returned by `detectTempo` lies in the closed interval `[75, 160]` beats per
minute (the default paths return 120, also in range). -/
theorem detectTempo_in_range (data : List ℚ) (rate : ℚ) (h : 0 < rate) :
    75 ≤ detectTempo data rate ∧ detectTempo data rate ≤ 160 :=
  tempoFromPeaks_mem (peaksOf data rate)

theorem detectTempo_in_range_witness :
    (0 : ℚ) < 1 ∧ (75 ≤ detectTempo [] 1 ∧ detectTempo [] 1 ≤ 160) :=
  ⟨by norm_num, detectTempo_in_range [] 1 (by norm_num)⟩

/-- C9: when fewer than 4 peaks are detected in the energy curve,
`detectTempo` returns the default of 120 BPM; this is an ordinary return
value, not an error, so the pipeline continues. -/
theorem detectTempo_default_on_few_peaks (data : List ℚ) (rate : ℚ)
    (h : (peaksOf data rate).length < 4) : detectTempo data rate = 120 := by
  rw [detectTempo, tempoFromPeaks, if_pos h]

theorem detectTempo_default_on_few_peaks_witness :
    (peaksOf [] 1).length < 4 ∧ detectTempo [] 1 = 120 :=
  ⟨by decide, detectTempo_default_on_few_peaks [] 1 (by decide)⟩

/-- C10: when 4 or more peaks are detected but every inter-onset interval
falls outside the open interval `(0.15, 2)`, the filtered interval list is
empty, the guarded branch returns 120, and the median index access is never
reached; `tempoFromPeaks` (and hence `detectTempo`) stays total. -/
theorem tempoFromPeaks_default_on_no_intervals (ps : List ℚ)
    (h4 : 4 ≤ ps.length) (h : ∀ x ∈ rawIntervals ps, x ≤ 0.15 ∨ 2 ≤ x) :
    tempoFromPeaks ps = 120 := by
  have hfil : intervalsOf ps = [] := by
    rw [intervalsOf, List.filter_eq_nil_iff]
    intro x hx
    simp only [Bool.and_eq_true, decide_eq_true_eq, gt_iff_lt, not_and, not_lt]
    intro h015
    rcases h x hx with h1 | h1
    · exact absurd h015 (not_lt.mpr h1)
    · exact h1
  rw [tempoFromPeaks, if_neg (by omega : ¬ps.length < 4)]
  simp only [hfil, List.length_nil, if_pos]

theorem tempoFromPeaks_default_on_no_intervals_witness :
    (4 ≤ ([0, 10, 20, 30] : List ℚ).length ∧
      (∀ x ∈ rawIntervals [0, 10, 20, 30], x ≤ 0.15 ∨ 2 ≤ x)) ∧
    tempoFromPeaks [0, 10, 20, 30] = 120 :=
  ⟨⟨by decide, by norm_num [rawIntervals]⟩,
    tempoFromPeaks_default_on_no_intervals [0, 10, 20, 30] (by decide)
      (by norm_num [rawIntervals])⟩

/-- The empty buffer yields no analysis frames and hence no peaks. -/
theorem peaksOf_nil (rate : ℚ) : peaksOf [] rate = [] := by
  simp [peaksOf, frameStarts]

/-- On the empty buffer the tempo falls back to the default 120. -/
theorem detectTempo_nil (rate : ℚ) : detectTempo [] rate = 120 := by
  rw [detectTempo, peaksOf_nil, tempoFromPeaks, if_pos (by norm_num)]

/-- Concrete accepted invocation used by several witnesses: a 3-second
buffer with no detected onsets gets the default 120 BPM and 6 beats. -/
theorem beatsOf_three : beatsOf 3 [] 1 = 6 := by
  rw [beatsOf, detectTempo_nil, jsRound]
  norm_num

/-- Concrete rejected invocation: duration 0 computes 0 beats. -/
theorem beatsOf_zero : beatsOf 0 [] 1 = 0 := by
  rw [beatsOf, detectTempo_nil, jsRound]
  norm_num

/-- C4: whenever the decoded duration exceeds 8 seconds, the pipeline stops
with the duration error; the result does not depend on the channel samples,
the sample rate or the filtered band buffers, so no tempo estimation,
beat-count computation, band extraction, classification or serialization
contributes to it. -/
theorem durationError_first (duration : ℚ) (channel : List ℚ) (rate : ℚ)
    (lowData midData highData : List ℚ) (h : 8 < duration) :
    analyzeDrumLoop duration channel rate lowData midData highData =
      Except.error durationErrorMsg := by
  rw [analyzeDrumLoop, if_pos h]

theorem durationError_first_witness :
    (8 : ℚ) < 17 / 2 ∧
      analyzeDrumLoop (17 / 2) [] 1 [] [] [] = Except.error durationErrorMsg :=
  ⟨by norm_num, durationError_first (17 / 2) [] 1 [] [] [] (by norm_num)⟩

/-- C3: with the duration accepted, the pipeline fails with the beat-count
error exactly when `beatsOf` (that is, `round(duration / 60 * bpm)`) is
below 2 or above 16; the error message embeds the computed beat count, and
in the failing case no pattern or generated code is produced (the result is
an error, not an `AnalysisResult`). -/
theorem beatCountError_iff (duration : ℚ) (channel : List ℚ) (rate : ℚ)
    (lowData midData highData : List ℚ) (hdur : duration ≤ 8) :
    ((beatsOf duration channel rate < 2 ∨ beatsOf duration channel rate > 16) →
      analyzeDrumLoop duration channel rate lowData midData highData =
        Except.error (beatCountErrorMsg (beatsOf duration channel rate))) ∧
    (¬(beatsOf duration channel rate < 2 ∨ beatsOf duration channel rate > 16) →
      ∃ res, analyzeDrumLoop duration channel rate lowData midData highData =
        Except.ok res) ∧
    (∃ pre post, beatCountErrorMsg (beatsOf duration channel rate) =
      pre ++ toString (beatsOf duration channel rate) ++ post) := by
  have hnot : ¬duration > 8 := not_lt.mpr hdur
  refine ⟨?_, ?_, "Detected ",
    " beats - should be 4-16 beats. Try a different loop.", rfl⟩
  · intro hbad
    rw [analyzeDrumLoop, if_neg hnot]
    simp only [hbad, if_pos]
  · intro hgood
    rw [analyzeDrumLoop, if_neg hnot]
    simp only [hgood, if_neg, if_false]
    exact ⟨_, rfl⟩

theorem beatCountError_iff_witness :
    (0 : ℚ) ≤ 8 ∧
    (((beatsOf 0 [] 1 < 2 ∨ beatsOf 0 [] 1 > 16) →
      analyzeDrumLoop 0 [] 1 [] [] [] =
        Except.error (beatCountErrorMsg (beatsOf 0 [] 1))) ∧
    (¬(beatsOf 0 [] 1 < 2 ∨ beatsOf 0 [] 1 > 16) →
      ∃ res, analyzeDrumLoop 0 [] 1 [] [] [] = Except.ok res) ∧
    (∃ pre post, beatCountErrorMsg (beatsOf 0 [] 1) =
      pre ++ toString (beatsOf 0 [] 1) ++ post)) ∧
    analyzeDrumLoop 0 [] 1 [] [] [] =
      Except.error (beatCountErrorMsg (beatsOf 0 [] 1)) :=
  ⟨by norm_num, beatCountError_iff 0 [] 1 [] [] [] (by norm_num),
    (beatCountError_iff 0 [] 1 [] [] [] (by norm_num)).1
      (by rw [beatsOf_zero]; decide)⟩

/-- C1 fails on the code: the accepted invocation below (3-second silent
buffer, default tempo 120, hence 6 beats, within `[2, 16]`) produces
`bars = 6 / 4 = 3 / 2`, which is not an integer; line 37 of the source is
plain division, not an integral quantity. -/
theorem bars_not_integer_counterexample :
    (analyzeDrumLoop 3 [] 1 [] [] []).toOption.map (fun r => r.pattern.bars) =
      some (3 / 2) ∧ ¬∃ n : ℤ, ((3 : ℚ) / 2) = (n : ℚ) := by
  constructor
  · rw [analyzeDrumLoop, if_neg (by norm_num : ¬(3 : ℚ) > 8)]
    simp only [beatsOf_three]
    rw [if_neg (by decide : ¬((6 : ℤ) < 2 ∨ (6 : ℤ) > 16))]
    simp [Except.toOption]
    norm_num
  · rintro ⟨n, hn⟩
    have h1 : (3 : ℚ) = 2 * (n : ℚ) := by
      field_simp at hn
      linarith
    have h2 : (3 : ℤ) = 2 * n := by exact_mod_cast h1
    omega

/-- C1 amended: for every accepted invocation the `bars` field equals
`beats / 4` as an exact rational, and it is an integer precisely when the
accepted beat count is divisible by 4 (so for beat counts such as 5 or 6 it
is a proper fraction). -/
theorem bars_eq_beats_div_four (duration : ℚ) (channel : List ℚ) (rate : ℚ)
    (lowData midData highData : List ℚ) (hdur : duration ≤ 8)
    (h2 : 2 ≤ beatsOf duration channel rate)
    (h16 : beatsOf duration channel rate ≤ 16) :
    (analyzeDrumLoop duration channel rate lowData midData highData).toOption.map
        (fun r => r.pattern.bars) =
      some ((beatsOf duration channel rate : ℚ) / 4) ∧
    ((∃ n : ℤ, ((beatsOf duration channel rate : ℚ) / 4) = (n : ℚ)) ↔
      (4 : ℤ) ∣ beatsOf duration channel rate) := by
  have hnot : ¬duration > 8 := not_lt.mpr hdur
  have hgood : ¬(beatsOf duration channel rate < 2 ∨
      beatsOf duration channel rate > 16) := by omega
  constructor
  · rw [analyzeDrumLoop, if_neg hnot, if_neg hgood]
    simp [Except.toOption]
  · constructor
    · rintro ⟨n, hn⟩
      refine ⟨n, ?_⟩
      have h4 : (beatsOf duration channel rate : ℚ) = 4 * (n : ℚ) := by
        field_simp at hn
        linarith
      exact_mod_cast h4
    · rintro ⟨k, hk⟩
      exact ⟨k, by rw [hk]; push_cast; ring⟩

theorem bars_eq_beats_div_four_witness :
    ((3 : ℚ) ≤ 8 ∧ 2 ≤ beatsOf 3 [] 1 ∧ beatsOf 3 [] 1 ≤ 16) ∧
    ((analyzeDrumLoop 3 [] 1 [] [] []).toOption.map (fun r => r.pattern.bars) =
        some ((beatsOf 3 [] 1 : ℚ) / 4) ∧
      ((∃ n : ℤ, ((beatsOf 3 [] 1 : ℚ) / 4) = (n : ℚ)) ↔
        (4 : ℤ) ∣ beatsOf 3 [] 1)) :=
  ⟨⟨by norm_num, by rw [beatsOf_three]; decide, by rw [beatsOf_three]; decide⟩,
    bars_eq_beats_div_four 3 [] 1 [] [] [] (by norm_num)
      (by rw [beatsOf_three]; decide) (by rw [beatsOf_three]; decide)⟩

/-- JS `array.filter(x => x).length` on booleans counts the `true` entries. -/
theorem length_filter_id_eq_count (l : List Bool) :
    (l.filter fun b => b).length = l.count true := by
  induction l with
  | nil => rfl
  | cons x xs ih => cases x <;> simp [List.filter_cons, List.count_cons, ih]

/-- C8: whenever a Pattern is produced, its `kicks`, `snares` and `hihats`
statistics equal exactly the number of `true` entries of the kick, snare and
hi-hat hit sequences computed from the three filtered buffers. -/
theorem pattern_counts (duration : ℚ) (channel : List ℚ) (rate : ℚ)
    (lowData midData highData : List ℚ) (hdur : duration ≤ 8)
    (h2 : 2 ≤ beatsOf duration channel rate)
    (h16 : beatsOf duration channel rate ≤ 16) :
    (analyzeDrumLoop duration channel rate lowData midData highData).toOption.map
        (fun r => (r.pattern.kicks, r.pattern.snares, r.pattern.hihats)) =
      some
        ((classifyKicks (getStepEnergy lowData (stepsOf duration channel rate))
            (getStepEnergy midData (stepsOf duration channel rate))
            (getStepEnergy highData (stepsOf duration channel rate))).count true,
         (classifySnares (getStepEnergy lowData (stepsOf duration channel rate))
            (getStepEnergy midData (stepsOf duration channel rate))
            (getStepEnergy highData (stepsOf duration channel rate))).count true,
         (classifyHiHats (getStepEnergy lowData (stepsOf duration channel rate))
            (getStepEnergy midData (stepsOf duration channel rate))
            (getStepEnergy highData (stepsOf duration channel rate))).count true) := by
  have hnot : ¬duration > 8 := not_lt.mpr hdur
  have hgood : ¬(beatsOf duration channel rate < 2 ∨
      beatsOf duration channel rate > 16) := by omega
  rw [analyzeDrumLoop, if_neg hnot, if_neg hgood]
  simp [Except.toOption, length_filter_id_eq_count]

theorem pattern_counts_witness :
    ((3 : ℚ) ≤ 8 ∧ 2 ≤ beatsOf 3 [] 1 ∧ beatsOf 3 [] 1 ≤ 16) ∧
    (analyzeDrumLoop 3 [] 1 [] [] []).toOption.map
        (fun r => (r.pattern.kicks, r.pattern.snares, r.pattern.hihats)) =
      some
        ((classifyKicks (getStepEnergy [] (stepsOf 3 [] 1))
            (getStepEnergy [] (stepsOf 3 [] 1))
            (getStepEnergy [] (stepsOf 3 [] 1))).count true,
         (classifySnares (getStepEnergy [] (stepsOf 3 [] 1))
            (getStepEnergy [] (stepsOf 3 [] 1))
            (getStepEnergy [] (stepsOf 3 [] 1))).count true,
         (classifyHiHats (getStepEnergy [] (stepsOf 3 [] 1))
            (getStepEnergy [] (stepsOf 3 [] 1))
            (getStepEnergy [] (stepsOf 3 [] 1))).count true) :=
  ⟨⟨by norm_num, by rw [beatsOf_three]; decide, by rw [beatsOf_three]; decide⟩,
    pattern_counts 3 [] 1 [] [] [] (by norm_num)
      (by rw [beatsOf_three]; decide) (by rw [beatsOf_three]; decide)⟩

/-- C5: for every accepted invocation the step count is `beatCount * 8`,
each of the three energy profiles has exactly that many entries, and the
three hit sequences all have exactly that length as well. -/
theorem profile_and_hit_lengths (duration : ℚ) (channel : List ℚ) (rate : ℚ)
    (lowData midData highData : List ℚ) (hdur : duration ≤ 8)
    (h2 : 2 ≤ beatsOf duration channel rate)
    (h16 : beatsOf duration channel rate ≤ 16) :
    ((stepsOf duration channel rate : ℤ) = beatsOf duration channel rate * 8) ∧
    (getStepEnergy lowData (stepsOf duration channel rate)).length =
      stepsOf duration channel rate ∧
    (getStepEnergy midData (stepsOf duration channel rate)).length =
      stepsOf duration channel rate ∧
    (getStepEnergy highData (stepsOf duration channel rate)).length =
      stepsOf duration channel rate ∧
    (classifyKicks (getStepEnergy lowData (stepsOf duration channel rate))
        (getStepEnergy midData (stepsOf duration channel rate))
        (getStepEnergy highData (stepsOf duration channel rate))).length =
      stepsOf duration channel rate ∧
    (classifySnares (getStepEnergy lowData (stepsOf duration channel rate))
        (getStepEnergy midData (stepsOf duration channel rate))
        (getStepEnergy highData (stepsOf duration channel rate))).length =
      stepsOf duration channel rate ∧
    (classifyHiHats (getStepEnergy lowData (stepsOf duration channel rate))
        (getStepEnergy midData (stepsOf duration channel rate))
        (getStepEnergy highData (stepsOf duration channel rate))).length =
      stepsOf duration channel rate := by
  refine ⟨?_, ?_, ?_, ?_, ?_, ?_, ?_⟩
  · rw [stepsOf]
    push_cast
    rw [Int.toNat_of_nonneg (by omega)]
  all_goals simp [getStepEnergy, classifyKicks, classifySnares, classifyHiHats]

theorem profile_and_hit_lengths_witness :
    ((3 : ℚ) ≤ 8 ∧ 2 ≤ beatsOf 3 [] 1 ∧ beatsOf 3 [] 1 ≤ 16) ∧
    ((stepsOf 3 [] 1 : ℤ) = beatsOf 3 [] 1 * 8 ∧
    (getStepEnergy [] (stepsOf 3 [] 1)).length = stepsOf 3 [] 1 ∧
    (getStepEnergy [] (stepsOf 3 [] 1)).length = stepsOf 3 [] 1 ∧
    (getStepEnergy [] (stepsOf 3 [] 1)).length = stepsOf 3 [] 1 ∧
    (classifyKicks (getStepEnergy [] (stepsOf 3 [] 1))
        (getStepEnergy [] (stepsOf 3 [] 1))
        (getStepEnergy [] (stepsOf 3 [] 1))).length = stepsOf 3 [] 1 ∧
    (classifySnares (getStepEnergy [] (stepsOf 3 [] 1))
        (getStepEnergy [] (stepsOf 3 [] 1))
        (getStepEnergy [] (stepsOf 3 [] 1))).length = stepsOf 3 [] 1 ∧
    (classifyHiHats (getStepEnergy [] (stepsOf 3 [] 1))
        (getStepEnergy [] (stepsOf 3 [] 1))
        (getStepEnergy [] (stepsOf 3 [] 1))).length = stepsOf 3 [] 1) :=
  ⟨⟨by norm_num, by rw [beatsOf_three]; decide, by rw [beatsOf_three]; decide⟩,
    profile_and_hit_lengths 3 [] 1 [] [] [] (by norm_num)
      (by rw [beatsOf_three]; decide) (by rw [beatsOf_three]; decide)⟩

/-- C6: on aligned profiles, each of the three classifiers fires at step `i`
exactly according to its threshold rule; the rules are evaluated
independently from the same three profiles, and the final conjunct exhibits
concrete profiles on which the kick rule and the snare rule both fire at the
same step. -/
theorem classifier_rules {α : Type} [LinearOrderedField α]
    (lows mids highs : List (StepEnergy α)) (i : ℕ)
    (hm : mids.length = lows.length) (hh : highs.length = lows.length)
    (hi : i < lows.length) :
    ((classifyKicks lows mids highs).getD i false = true ↔
      ((lows.getD i ⟨0, 0⟩).rms > 0.15 ∧ (lows.getD i ⟨0, 0⟩).peak > 0.3 ∧
        (lows.getD i ⟨0, 0⟩).rms > (highs.getD i ⟨0, 0⟩).rms * 1.5)) ∧
    ((classifySnares lows mids highs).getD i false = true ↔
      ((mids.getD i ⟨0, 0⟩).rms > 0.15 ∧ (mids.getD i ⟨0, 0⟩).peak > 0.25 ∧
        (lows.getD i ⟨0, 0⟩).rms < 0.4)) ∧
    ((classifyHiHats lows mids highs).getD i false = true ↔
      ((highs.getD i ⟨0, 0⟩).rms > 0.05 ∧ (highs.getD i ⟨0, 0⟩).peak > 0.1 ∧
        (lows.getD i ⟨0, 0⟩).rms < 0.2 ∧ (mids.getD i ⟨0, 0⟩).rms < 0.2)) ∧
    ((classifyKicks [({ rms := 0.3, peak := 0.5 } : StepEnergy ℚ)]
        [{ rms := 0.3, peak := 0.5 }] [{ rms := 0, peak := 0 }]).getD 0 false = true ∧
      (classifySnares [({ rms := 0.3, peak := 0.5 } : StepEnergy ℚ)]
        [{ rms := 0.3, peak := 0.5 }] [{ rms := 0, peak := 0 }]).getD 0 false = true) := by
  have hk : i < (classifyKicks lows mids highs).length := by
    simpa [classifyKicks] using hi
  have hs : i < (classifySnares lows mids highs).length := by
    simpa [classifySnares] using hm ▸ hi
  have hht : i < (classifyHiHats lows mids highs).length := by
    simpa [classifyHiHats] using hh ▸ hi
  refine ⟨?_, ?_, ?_, ?_, ?_⟩
  · rw [List.getD_eq_getElem _ _ hk]
    simp [classifyKicks, List.getElem_map, List.getElem_range]
  · rw [List.getD_eq_getElem _ _ hs]
    simp [classifySnares, List.getElem_map, List.getElem_range]
  · rw [List.getD_eq_getElem _ _ hht]
    simp [classifyHiHats, List.getElem_map, List.getElem_range]
  · norm_num [classifyKicks, List.getD]
  · norm_num [classifySnares, List.getD]

theorem classifier_rules_witness :
    (([({ rms := 0, peak := 0 } : StepEnergy ℚ)]).length =
        ([({ rms := 0, peak := 0 } : StepEnergy ℚ)]).length ∧
      0 < ([({ rms := 0, peak := 0 } : StepEnergy ℚ)]).length) ∧
    (((classifyKicks [({ rms := 0, peak := 0 } : StepEnergy ℚ)]
        [{ rms := 0, peak := 0 }] [{ rms := 0, peak := 0 }]).getD 0 false = true ↔
      ((([({ rms := 0, peak := 0 } : StepEnergy ℚ)]).getD 0 ⟨0, 0⟩).rms > 0.15 ∧
        (([({ rms := 0, peak := 0 } : StepEnergy ℚ)]).getD 0 ⟨0, 0⟩).peak > 0.3 ∧
        (([({ rms := 0, peak := 0 } : StepEnergy ℚ)]).getD 0 ⟨0, 0⟩).rms >
          (([({ rms := 0, peak := 0 } : StepEnergy ℚ)]).getD 0 ⟨0, 0⟩).rms * 1.5)) ∧
    ((classifySnares [({ rms := 0, peak := 0 } : StepEnergy ℚ)]
        [{ rms := 0, peak := 0 }] [{ rms := 0, peak := 0 }]).getD 0 false = true ↔
      ((([({ rms := 0, peak := 0 } : StepEnergy ℚ)]).getD 0 ⟨0, 0⟩).rms > 0.15 ∧
        (([({ rms := 0, peak := 0 } : StepEnergy ℚ)]).getD 0 ⟨0, 0⟩).peak > 0.25 ∧
        (([({ rms := 0, peak := 0 } : StepEnergy ℚ)]).getD 0 ⟨0, 0⟩).rms < 0.4)) ∧
    ((classifyHiHats [({ rms := 0, peak := 0 } : StepEnergy ℚ)]
        [{ rms := 0, peak := 0 }] [{ rms := 0, peak := 0 }]).getD 0 false = true ↔
      ((([({ rms := 0, peak := 0 } : StepEnergy ℚ)]).getD 0 ⟨0, 0⟩).rms > 0.05 ∧
        (([({ rms := 0, peak := 0 } : StepEnergy ℚ)]).getD 0 ⟨0, 0⟩).peak > 0.1 ∧
        (([({ rms := 0, peak := 0 } : StepEnergy ℚ)]).getD 0 ⟨0, 0⟩).rms < 0.2 ∧
        (([({ rms := 0, peak := 0 } : StepEnergy ℚ)]).getD 0 ⟨0, 0⟩).rms < 0.2)) ∧
    ((classifyKicks [({ rms := 0.3, peak := 0.5 } : StepEnergy ℚ)]
        [{ rms := 0.3, peak := 0.5 }] [{ rms := 0, peak := 0 }]).getD 0 false = true ∧
      (classifySnares [({ rms := 0.3, peak := 0.5 } : StepEnergy ℚ)]
        [{ rms := 0.3, peak := 0.5 }] [{ rms := 0, peak := 0 }]).getD 0 false = true)) :=
  ⟨⟨rfl, by decide⟩,
    classifier_rules [({ rms := 0, peak := 0 } : StepEnergy ℚ)]
      [{ rms := 0, peak := 0 }] [{ rms := 0, peak := 0 }] 0 rfl rfl (by decide)⟩

/-- Folding `max` of absolute values over an all-zero list keeps the
(nonnegative) accumulator. -/
theorem foldl_max_abs_of_zeros (l : List ℚ) (h : ∀ x ∈ l, x = 0) :
    ∀ a : ℚ, 0 ≤ a → l.foldl (fun m x => max m |x|) a = a := by
  induction l with
  | nil => intro a _; rfl
  | cons x xs ih =>
    intro a ha
    have hx : x = 0 := h x (List.mem_cons_self x xs)
    rw [List.foldl_cons, hx, abs_zero, max_eq_left ha]
    exact ih (fun y hy => h y (List.mem_cons_of_mem x hy)) a ha

/-- On an all-zero buffer every normalized energy entry is exactly `(0, 0)`:
the global peak is 0, so the `globalMax || 1` guard divides by 1, and every
slice has zero sum and zero peak. -/
theorem getStepEnergy_of_zeros (data : List ℚ) (steps : ℕ)
    (h : ∀ x ∈ data, x = 0) :
    getStepEnergy data steps = List.replicate steps ⟨0, 0⟩ := by
  have hgm : data.foldl (fun m x => max m |x|) 0 = 0 :=
    foldl_max_abs_of_zeros data h 0 le_rfl
  rw [getStepEnergy]
  simp only [hgm, if_pos]
  rw [List.eq_replicate_iff]
  refine ⟨by simp, ?_⟩
  intro b hb
  rw [List.mem_map] at hb
  obtain ⟨step, hstep, hfb⟩ := hb
  have hslice : ∀ v ∈ (data.drop (step * (data.length / steps))).take
      (data.length / steps), v = 0 :=
    fun v hv => h v (List.mem_of_mem_drop (List.mem_of_mem_take hv))
  have hsum : (((data.drop (step * (data.length / steps))).take
      (data.length / steps)).map fun v => |v| * |v|).sum = 0 := by
    apply List.sum_eq_zero
    intro y hy
    rw [List.mem_map] at hy
    obtain ⟨v, hv, hyv⟩ := hy
    rw [← hyv, hslice v hv, abs_zero, mul_zero]
  have hpeak : ((data.drop (step * (data.length / steps))).take
      (data.length / steps)).foldl (fun p v => max p |v|) 0 = 0 :=
    foldl_max_abs_of_zeros _ hslice 0 le_rfl
  rw [← hfb, hsum, hpeak]
  simp

/-- On all-zero profiles the kick rule never fires. -/
theorem classifyKicks_replicate {α : Type} [LinearOrderedField α] (n : ℕ) :
    classifyKicks (List.replicate n (⟨0, 0⟩ : StepEnergy α))
      (List.replicate n ⟨0, 0⟩) (List.replicate n ⟨0, 0⟩) =
      List.replicate n false := by
  rw [classifyKicks, List.eq_replicate_iff]
  refine ⟨by simp, ?_⟩
  intro b hb
  rw [List.mem_map] at hb
  obtain ⟨i, _, hfb⟩ := hb
  have hgd : (List.replicate n (⟨0, 0⟩ : StepEnergy α)).getD i ⟨0, 0⟩ = ⟨0, 0⟩ := by
    by_cases hin : i < n
    · rw [List.getD_eq_getElem _ _ (by simpa using hin), List.getElem_replicate]
    · rw [List.getD_eq_default _ _ (by simpa using not_lt.mp hin)]
  rw [← hfb, hgd]
  rw [decide_eq_false_iff_not]
  rintro ⟨h1, -⟩
  norm_num at h1

/-- On all-zero profiles the snare rule never fires. -/
theorem classifySnares_replicate {α : Type} [LinearOrderedField α] (n : ℕ) :
    classifySnares (List.replicate n (⟨0, 0⟩ : StepEnergy α))
      (List.replicate n ⟨0, 0⟩) (List.replicate n ⟨0, 0⟩) =
      List.replicate n false := by
  rw [classifySnares, List.eq_replicate_iff]
  refine ⟨by simp, ?_⟩
  intro b hb
  rw [List.mem_map] at hb
  obtain ⟨i, _, hfb⟩ := hb
  have hgd : (List.replicate n (⟨0, 0⟩ : StepEnergy α)).getD i ⟨0, 0⟩ = ⟨0, 0⟩ := by
    by_cases hin : i < n
    · rw [List.getD_eq_getElem _ _ (by simpa using hin), List.getElem_replicate]
    · rw [List.getD_eq_default _ _ (by simpa using not_lt.mp hin)]
  rw [← hfb, hgd]
  rw [decide_eq_false_iff_not]
  rintro ⟨h1, -⟩
  norm_num at h1

/-- On all-zero profiles the hi-hat rule never fires. -/
theorem classifyHiHats_replicate {α : Type} [LinearOrderedField α] (n : ℕ) :
    classifyHiHats (List.replicate n (⟨0, 0⟩ : StepEnergy α))
      (List.replicate n ⟨0, 0⟩) (List.replicate n ⟨0, 0⟩) =
      List.replicate n false := by
  rw [classifyHiHats, List.eq_replicate_iff]
  refine ⟨by simp, ?_⟩
  intro b hb
  rw [List.mem_map] at hb
  obtain ⟨i, _, hfb⟩ := hb
  have hgd : (List.replicate n (⟨0, 0⟩ : StepEnergy α)).getD i ⟨0, 0⟩ = ⟨0, 0⟩ := by
    by_cases hin : i < n
    · rw [List.getD_eq_getElem _ _ (by simpa using hin), List.getElem_replicate]
    · rw [List.getD_eq_default _ _ (by simpa using not_lt.mp hin)]
  rw [← hfb, hgd]
  rw [decide_eq_false_iff_not]
  rintro ⟨h1, -⟩
  norm_num at h1

/-- C7: for an all-zero input of valid shape (at least one sample per step),
the normalization guard substitutes 1 for the zero global peak, all
normalized energies are exactly 0, every entry of the three hit sequences is
false, and the serialized beat strings consist only of `~` rest tokens. -/
theorem silent_buffer_all_rests (lowData midData highData : List ℚ)
    (steps : ℕ) (sound : String) (hpos : 0 < steps)
    (hl : steps ≤ lowData.length) (hm : steps ≤ midData.length)
    (hh : steps ≤ highData.length)
    (hzl : ∀ x ∈ lowData, x = 0) (hzm : ∀ x ∈ midData, x = 0)
    (hzh : ∀ x ∈ highData, x = 0) :
    getStepEnergy lowData steps = List.replicate steps ⟨0, 0⟩ ∧
    getStepEnergy midData steps = List.replicate steps ⟨0, 0⟩ ∧
    getStepEnergy highData steps = List.replicate steps ⟨0, 0⟩ ∧
    classifyKicks (getStepEnergy lowData steps) (getStepEnergy midData steps)
        (getStepEnergy highData steps) = List.replicate steps false ∧
    classifySnares (getStepEnergy lowData steps) (getStepEnergy midData steps)
        (getStepEnergy highData steps) = List.replicate steps false ∧
    classifyHiHats (getStepEnergy lowData steps) (getStepEnergy midData steps)
        (getStepEnergy highData steps) = List.replicate steps false ∧
    ∀ s ∈ patternToString (List.replicate steps false) sound,
      ∃ k, s = String.intercalate " " (List.replicate k "~") := by
  have h1 := getStepEnergy_of_zeros lowData steps hzl
  have h2 := getStepEnergy_of_zeros midData steps hzm
  have h3 := getStepEnergy_of_zeros highData steps hzh
  refine ⟨h1, h2, h3, ?_, ?_, ?_, ?_⟩
  · rw [h1, h2, h3, classifyKicks_replicate]
  · rw [h1, h2, h3, classifySnares_replicate]
  · rw [h1, h2, h3, classifyHiHats_replicate]
  · intro s hs
    rw [patternToString, List.mem_map] at hs
    obtain ⟨i, _, hsi⟩ := hs
    refine ⟨8 ⊓ (steps - 8 * i), ?_⟩
    rw [← hsi, List.drop_replicate, List.take_replicate, List.map_replicate]
    simp

theorem silent_buffer_all_rests_witness :
    (0 < 1 ∧ 1 ≤ ([0] : List ℚ).length ∧ (∀ x ∈ ([0] : List ℚ), x = 0)) ∧
    (getStepEnergy [0] 1 = List.replicate 1 ⟨0, 0⟩ ∧
    getStepEnergy [0] 1 = List.replicate 1 ⟨0, 0⟩ ∧
    getStepEnergy [0] 1 = List.replicate 1 ⟨0, 0⟩ ∧
    classifyKicks (getStepEnergy [0] 1) (getStepEnergy [0] 1)
        (getStepEnergy [0] 1) = List.replicate 1 false ∧
    classifySnares (getStepEnergy [0] 1) (getStepEnergy [0] 1)
        (getStepEnergy [0] 1) = List.replicate 1 false ∧
    classifyHiHats (getStepEnergy [0] 1) (getStepEnergy [0] 1)
        (getStepEnergy [0] 1) = List.replicate 1 false ∧
    ∀ s ∈ patternToString (List.replicate 1 false) "bd",
      ∃ k, s = String.intercalate " " (List.replicate k "~")) :=
  ⟨⟨by decide, by decide, by decide⟩,
    silent_buffer_all_rests [0] [0] [0] 1 "bd" (by decide) (by decide)
      (by decide) (by decide) (by decide) (by decide) (by decide)⟩
